import Mathlib

/-!
Verification of the maven-mcp version-semantics engine.

Shallow embedding of the Rust sources under `src/`:
  * `src/models/version.rs` — `VersionStability::classify`, `MavenVersion::parse_parts`,
    `MavenVersion::compare`, `is_qualifier`, `compare_qualifiers`, `UpdateType::between`.
  * `src/models/coordinate.rs` — `MavenCoordinate::parse`.
  * `src/maven/client.rs` — `MavenClient::process_metadata`, `MavenClient::version_exists`.
  * `src/tools/service.rs` — `check_single_dependency`, `analyze_single_health`,
    the batch fan-out of `check_multiple_dependencies` / `analyze_project_health`,
    and `check_version_exists`.

Modelling conventions:
  * Strings are `List Char`.  Rust's Unicode `to_uppercase` / `to_lowercase` /
    `is_alphanumeric` / `trim` are modelled by their ASCII restrictions
    (`Char.toUpper`, `Char.toLower`, `Char.isAlphanum`, `Char.isWhitespace`);
    on ASCII input, which every concrete claim uses, the two coincide.
  * Rust `u64` values are `Nat`s; `str::parse::<u64>` succeeds exactly when the
    decimal value is at most `2^64 - 1`, which is modelled explicitly.
  * The network fetch of `MavenClient::get_metadata` is an oracle parameter
    `fetch : MavenCoordinate → Except (List Char) CachedMetadata`.
  * `futures::future::join_all` resolves independent per-item futures and returns
    their results in input order, so a batch fan-out over pure per-item work is
    modelled as `List.map`.
  * Rust's `sort_by` is a stable sort; it is modelled by a stable insertion sort
    (`sortByDesc` below inserts each later element after all earlier elements it
    does not strictly exceed under the flipped comparator `|a, b| b.1.cmp(&a.1)`).
  * `f32` health scores in the source are the exact integers 100/90/70/50/40 and
    are modelled as `Nat`.
-/

/-- `Ordering`-valued comparison of naturals, modelling Rust's `u64::cmp`. -/
def cmpNat (a b : Nat) : Ordering :=
  if a < b then .lt else if b < a then .gt else .eq

/-- Rust `str::starts_with` on character lists. -/
def startsWithList : List Char → List Char → Bool
  | _, [] => true
  | [], _ :: _ => false
  | c :: cs, d :: ds => c == d && startsWithList cs ds

/-- Rust `str::contains` (substring search) on character lists. -/
def containsSub : List Char → List Char → Bool
  | [], needle => needle.isEmpty
  | c :: cs, needle => startsWithList (c :: cs) needle || containsSub cs needle

/-- Rust `str::ends_with` on character lists. -/
def endsWithList (hay needle : List Char) : Bool :=
  startsWithList hay.reverse needle.reverse

/-- Rust `str::split(pred)` (keeps empty segments), accumulator form. -/
def splitPAux (p : Char → Bool) : List Char → List Char → List (List Char)
  | [], acc => [acc.reverse]
  | c :: cs, acc =>
    if p c then acc.reverse :: splitPAux p cs [] else splitPAux p cs (c :: acc)

/-- Rust `str::split(pred)` on character lists (keeps empty segments). -/
def splitP (p : Char → Bool) (l : List Char) : List (List Char) :=
  splitPAux p l []

/-- ASCII upper-casing of a character list (models Rust `str::to_uppercase`). -/
def toUpperList (l : List Char) : List Char := l.map Char.toUpper

/-- ASCII lower-casing of a character list (models Rust `str::to_lowercase`). -/
def toLowerList (l : List Char) : List Char := l.map Char.toLower

/-- Decimal value of a list of ASCII digits. -/
def digitsToNat (l : List Char) : Nat :=
  l.foldl (fun a c => a * 10 + (c.toNat - 48)) 0

/-- Rust `str::parse::<u64>().unwrap_or(0)` on an all-digit run: the value when it
fits in `u64`, otherwise 0. -/
def parseU64OrZero (l : List Char) : Nat :=
  let v := digitsToNat l
  if v < 2 ^ 64 then v else 0

/-- Rust `str::parse::<u64>().ok()` on an all-digit run: the value when it fits
in `u64`, otherwise `none`. -/
def parseU64Opt (l : List Char) : Option Nat :=
  let v := digitsToNat l
  if v < 2 ^ 64 then some v else none

/-! ## `src/models/version.rs` -/

/-- `VersionStability` from `src/models/version.rs`. -/
inductive VersionStability
  | stable
  | rc
  | beta
  | alpha
  | milestone
  | snapshot
  deriving DecidableEq, Repr

/-- The milestone-token test inside `VersionStability::classify`: the token starts
with `M`, has length > 1, and its remaining characters are all ASCII digits. -/
def isMilestoneToken : List Char → Bool
  | 'M' :: rest => !rest.isEmpty && rest.all Char.isDigit
  | _ => false

/-- `VersionStability::classify` from `src/models/version.rs`: upper-case the
string and apply the checks in order Snapshot, Alpha, Beta, RC, Milestone, with
default Stable. -/
def VersionStability.classify (version : List Char) : VersionStability :=
  let v := toUpperList version
  if containsSub v "SNAPSHOT".data then .snapshot
  else if containsSub v "ALPHA".data || containsSub v "-A.".data ||
      endsWithList v "-A".data then .alpha
  else if containsSub v "BETA".data || containsSub v "-B.".data ||
      endsWithList v "-B".data then .beta
  else if containsSub v "-RC".data || containsSub v ".RC".data ||
      containsSub v "-CR".data || containsSub v ".CR".data then .rc
  else if (containsSub v "-M".data || containsSub v ".M".data) &&
      (splitP (fun c => !c.isAlphanum) v).any isMilestoneToken then .milestone
  else .stable

/-- `VersionPart` from `src/models/version.rs`. -/
inductive VersionPart
  | number (n : Nat)
  | string (s : List Char)
  deriving DecidableEq, Repr

/-- The flush step of `MavenVersion::parse_parts`: emit the current run (if any)
as a number or lower-cased text token. -/
def flushPart (inNumber : Bool) (current : List Char) : List VersionPart :=
  if current.isEmpty then []
  else if inNumber then [.number (parseU64OrZero current)]
  else [.string (toLowerList current)]

/-- The body of the character loop of `MavenVersion::parse_parts` for one
character: the parts it emits, the new accumulating run, and the new
`in_number` flag. -/
def partStep (current : List Char) (inNumber : Bool) (c : Char) :
    List VersionPart × List Char × Bool :=
  if c.isDigit then
    if !inNumber && !current.isEmpty then ([.string (toLowerList current)], [c], true)
    else ([], current ++ [c], true)
  else if c == '.' || c == '-' || c == '_' then
    (flushPart inNumber current, [], false)
  else if inNumber && !current.isEmpty then
    ([.number (parseU64OrZero current)], [c], false)
  else ([], current ++ [c], false)

/-- The character loop of `MavenVersion::parse_parts`, carrying the emitted parts,
the currently accumulating run, and the `in_number` flag. -/
def parsePartsLoop (parts : List VersionPart) (current : List Char)
    (inNumber : Bool) : List Char → List VersionPart
  | [] => parts ++ flushPart inNumber current
  | c :: rest =>
    parsePartsLoop (parts ++ (partStep current inNumber c).1)
      (partStep current inNumber c).2.1 (partStep current inNumber c).2.2 rest

/-- `MavenVersion::parse_parts` from `src/models/version.rs`. -/
def parse_parts (version : List Char) : List VersionPart :=
  parsePartsLoop [] [] false version

/-- `is_qualifier` from `src/models/version.rs`. -/
def is_qualifier (s : List Char) : Bool :=
  let t := toLowerList s
  t == "alpha".data || t == "beta".data || t == "rc".data || t == "cr".data ||
    t == "snapshot".data || t == "m".data || t == "milestone".data ||
    t == "a".data || t == "b".data

/-- The qualifier priority table inside `compare_qualifiers`
(`src/models/version.rs`): unknown qualifiers are treated as milestone-level. -/
def qualifierPriority (s : List Char) : Nat :=
  let t := toLowerList s
  if t == "snapshot".data then 0
  else if t == "alpha".data || t == "a".data then 1
  else if t == "beta".data || t == "b".data then 2
  else if t == "milestone".data || t == "m".data then 3
  else if t == "rc".data || t == "cr".data then 4
  else if t == "ga".data || t == "final".data || t == "release".data then 5
  else 3

/-- `compare_qualifiers` from `src/models/version.rs`. -/
def compare_qualifiers (a b : List Char) : Ordering :=
  cmpNat (qualifierPriority a) (qualifierPriority b)

/-- The token-sequence loop of `MavenVersion::compare` (`src/models/version.rs`),
written as simultaneous recursion: index `i` of the Rust loop is reached exactly
when every earlier pair compared equal. -/
def compareParts : List VersionPart → List VersionPart → Ordering
  | [], [] => .eq
  | .number a :: as, .number b :: bs =>
    match cmpNat a b with
    | .eq => compareParts as bs
    | o => o
  | .string a :: as, .string b :: bs =>
    match compare_qualifiers a b with
    | .eq => compareParts as bs
    | o => o
  | .number _ :: _, .string s :: _ => if is_qualifier s then .gt else .lt
  | .string s :: _, .number _ :: _ => if is_qualifier s then .lt else .gt
  | .number _ :: _, [] => .gt
  | .string s :: _, [] => if is_qualifier s then .lt else .gt
  | [], .number _ :: _ => .lt
  | [], .string s :: _ => if is_qualifier s then .gt else .lt

/-- `MavenVersion` from `src/models/version.rs`. -/
structure MavenVersion where
  original : List Char
  stability : VersionStability
  parts : List VersionPart
  deriving DecidableEq, Repr

/-- `MavenVersion::parse` from `src/models/version.rs`. -/
def MavenVersion.parse (version : List Char) : MavenVersion :=
  { original := version
    stability := VersionStability.classify version
    parts := parse_parts version }

/-- `MavenVersion::compare` from `src/models/version.rs` (also its `Ord` impl). -/
def MavenVersion.compare (a b : MavenVersion) : Ordering :=
  compareParts a.parts b.parts

/-- `UpdateType` from `src/models/version.rs`. -/
inductive UpdateType
  | major
  | minor
  | patch
  | other
  deriving DecidableEq, Repr

/-- `UpdateType::extract_numeric_parts` from `src/models/version.rs`: split on
non-digits, drop empty segments, keep the segments that parse as `u64`. -/
def extract_numeric_parts (version : List Char) : List Nat :=
  ((splitP (fun c => !c.isDigit) version).filter (fun s => !s.isEmpty)).filterMap
    parseU64Opt

/-- `UpdateType::between` from `src/models/version.rs`. -/
def UpdateType.between (current target : List Char) : UpdateType :=
  let current_parts := extract_numeric_parts current
  let target_parts := extract_numeric_parts target
  if current_parts.isEmpty || target_parts.isEmpty then .other
  else
    let current_major := current_parts.headD 0
    let target_major := target_parts.headD 0
    if target_major ≠ current_major then .major
    else
      let current_minor := current_parts.getD 1 0
      let target_minor := target_parts.getD 1 0
      if target_minor ≠ current_minor then .minor
      else .patch

/-! ## `src/models/coordinate.rs` -/

/-- `CoordinateError` from `src/models/coordinate.rs`. -/
inductive CoordinateError
  | invalidFormat (s : List Char)
  | emptyGroupId
  | emptyArtifactId
  deriving DecidableEq, Repr

/-- The `thiserror` display strings of `CoordinateError`
(`src/models/coordinate.rs`), used as per-item error messages by the batch
helpers in `src/tools/service.rs`. -/
def CoordinateError.message : CoordinateError → List Char
  | .invalidFormat s =>
    "Invalid Maven coordinate format: ".data ++ s ++
      ". Expected 'groupId:artifactId' or 'groupId:artifactId:version'".data
  | .emptyGroupId => "Empty group ID".data
  | .emptyArtifactId => "Empty artifact ID".data

/-- Rust `str::trim` (ASCII whitespace model). -/
def trimList (l : List Char) : List Char :=
  ((l.dropWhile Char.isWhitespace).reverse.dropWhile Char.isWhitespace).reverse

/-- `MavenCoordinate` from `src/models/coordinate.rs`. -/
structure MavenCoordinate where
  group_id : List Char
  artifact_id : List Char
  version : Option (List Char)
  deriving DecidableEq, Repr

/-- `MavenCoordinate::parse` from `src/models/coordinate.rs`. -/
def MavenCoordinate.parse (raw : List Char) : Except CoordinateError MavenCoordinate :=
  let input := trimList raw
  let parts := splitP (fun c => c == ':') input
  if parts.length = 2 then
    let group_id := trimList (parts.getD 0 [])
    let artifact_id := trimList (parts.getD 1 [])
    if group_id.isEmpty then .error .emptyGroupId
    else if artifact_id.isEmpty then .error .emptyArtifactId
    else .ok { group_id, artifact_id, version := none }
  else if parts.length = 3 ∨ parts.length = 4 ∨ parts.length = 5 then
    let group_id := trimList (parts.getD 0 [])
    let artifact_id := trimList (parts.getD 1 [])
    let version := trimList (parts.getLastD [])
    if group_id.isEmpty then .error .emptyGroupId
    else if artifact_id.isEmpty then .error .emptyArtifactId
    else .ok { group_id, artifact_id,
               version := if version.isEmpty then none else some version }
  else .error (.invalidFormat input)

/-- `MavenCoordinate::to_ga` from `src/models/coordinate.rs`. -/
def MavenCoordinate.to_ga (c : MavenCoordinate) : List Char :=
  c.group_id ++ ':' :: c.artifact_id

/-! ## `src/maven/client.rs` -/

/-- `CachedMetadata` from `src/maven/client.rs`. -/
structure CachedMetadata where
  all_versions : List (List Char)
  stable_versions : List (List Char)
  latest_stable : Option (List Char)
  latest_any : Option (List Char)
  latest_rc : Option (List Char)
  latest_beta : Option (List Char)
  latest_alpha : Option (List Char)
  latest_milestone : Option (List Char)
  last_updated : Option (List Char)
  deriving DecidableEq, Repr

/-- `a.or b`: `a` when it is `some`, else `b`; models the
`if field.is_none() { field = Some(v) }` updates in `process_metadata`. -/
def optOr : Option α → Option α → Option α
  | some a, _ => some a
  | none, b => b

/-- One insertion step of the stable descending sort: the new (later) element
goes before the first earlier element it strictly exceeds under
`MavenVersion::compare`, exactly the order produced by Rust's stable
`sort_by(|a, b| b.1.cmp(&a.1))` in `process_metadata`. -/
def insertDesc (x : List Char × MavenVersion) :
    List (List Char × MavenVersion) → List (List Char × MavenVersion)
  | [] => [x]
  | y :: ys => if MavenVersion.compare x.2 y.2 = .gt then x :: y :: ys
               else y :: insertDesc x ys

/-- Stable descending sort of `(string, parsed)` pairs, modelling
`sorted_versions.sort_by(|a, b| b.1.cmp(&a.1))` in `process_metadata`. -/
def sortByDesc (l : List (List Char × MavenVersion)) :
    List (List Char × MavenVersion) :=
  l.foldl (fun acc x => insertDesc x acc) []

/-- The body of the categorization loop of `MavenClient::process_metadata`
(`src/maven/client.rs`): record `latest_any` from the first element, route each
element by its stability, and drop Snapshot elements from every category. -/
def categorizeStep (st : CachedMetadata) (p : List Char × MavenVersion) :
    CachedMetadata :=
  let st := { st with latest_any := optOr st.latest_any (some p.1) }
  match p.2.stability with
  | .stable =>
    { st with stable_versions := st.stable_versions ++ [p.1],
              latest_stable := optOr st.latest_stable (some p.1) }
  | .rc => { st with latest_rc := optOr st.latest_rc (some p.1) }
  | .beta => { st with latest_beta := optOr st.latest_beta (some p.1) }
  | .alpha => { st with latest_alpha := optOr st.latest_alpha (some p.1) }
  | .milestone => { st with latest_milestone := optOr st.latest_milestone (some p.1) }
  | .snapshot => st

/-- `MavenClient::process_metadata` from `src/maven/client.rs`, as a function of
the raw version list and `lastUpdated` field of the metadata record: pair each
version with its parse, stable-sort descending, then run the categorization
loop. -/
def process_metadata (versions : List (List Char))
    (last_updated : Option (List Char)) : CachedMetadata :=
  let sorted := sortByDesc (versions.map fun v => (v, MavenVersion.parse v))
  (sorted.foldl categorizeStep
    { all_versions := sorted.map Prod.fst
      stable_versions := []
      latest_stable := none
      latest_any := none
      latest_rc := none
      latest_beta := none
      latest_alpha := none
      latest_milestone := none
      last_updated })

/-- `MavenClient::version_exists` from `src/maven/client.rs`, given the processed
metadata: exact string membership in `all_versions`. -/
def version_exists (metadata : CachedMetadata) (version : List Char) : Bool :=
  metadata.all_versions.any (fun v => v == version)

/-! ## `src/tools/service.rs` -/

/-- `AgeClassification` from `src/tools/responses.rs`. -/
inductive AgeClassification
  | current
  | fresh
  | aging
  | stale
  | outdated
  deriving DecidableEq, Repr

/-- The scoring block of `analyze_single_health` (`src/tools/service.rs`,
lines 719-747): count the stable versions strictly newer than `current` under
`MavenVersion::compare` and map the count (and, past 5, the update magnitude to
`latest_stable`) to an age classification and health score. -/
def ageAndScore (current_version : List Char)
    (stable_versions : List (List Char)) (latest_stable : Option (List Char)) :
    AgeClassification × Nat :=
  let current_parsed := MavenVersion.parse current_version
  let stable_versions_since :=
    (stable_versions.filter fun v =>
      MavenVersion.compare (MavenVersion.parse v) current_parsed = .gt).length
  if stable_versions_since = 0 then (.current, 100)
  else if stable_versions_since ≤ 2 then (.fresh, 90)
  else if stable_versions_since ≤ 5 then (.aging, 70)
  else
    match latest_stable with
    | some latest =>
      if UpdateType.between current_version latest = .major then (.outdated, 40)
      else (.stale, 50)
    | none => (.stale, 50)

/-- `DependencyCheckResult` from `src/tools/responses.rs`. -/
structure DependencyCheckResult where
  dependency : List Char
  current_version : Option (List Char)
  latest_version : Option (List Char)
  is_outdated : Bool
  update_type : Option UpdateType
  error : Option (List Char)
  deriving DecidableEq, Repr

/-- `check_single_dependency` from `src/tools/service.rs`, with the network call
`client.get_metadata` abstracted as the `fetch` oracle. -/
def check_single_dependency
    (fetch : MavenCoordinate → Except (List Char) CachedMetadata)
    (dependency : List Char) (stable_only : Bool) : DependencyCheckResult :=
  match MavenCoordinate.parse dependency with
  | .error e =>
    { dependency
      current_version := none
      latest_version := none
      is_outdated := false
      update_type := none
      error := some e.message }
  | .ok coordinate =>
    let current_version := coordinate.version
    match fetch coordinate with
    | .error e =>
      { dependency := coordinate.to_ga
        current_version
        latest_version := none
        is_outdated := false
        update_type := none
        error := some e }
    | .ok metadata =>
      let latest_version :=
        if stable_only then metadata.latest_stable else metadata.latest_any
      match current_version, latest_version with
      | some current, some latest =>
        let current_parsed := MavenVersion.parse current
        let latest_parsed := MavenVersion.parse latest
        let is_outdated := MavenVersion.compare current_parsed latest_parsed = .lt
        { dependency := coordinate.to_ga
          current_version := some current
          latest_version := some latest
          is_outdated
          update_type :=
            if is_outdated then some (UpdateType.between current latest) else none
          error := none }
      | none, some latest =>
        { dependency := coordinate.to_ga
          current_version := none
          latest_version := some latest
          is_outdated := false
          update_type := none
          error := none }
      | _, _ =>
        { dependency := coordinate.to_ga
          current_version
          latest_version := none
          is_outdated := false
          update_type := none
          error := some "No versions found".data }

/-- `DependencyHealthResult` from `src/tools/responses.rs`. -/
structure DependencyHealthResult where
  dependency : List Char
  current_version : Option (List Char)
  latest_version : Option (List Char)
  age_classification : Option AgeClassification
  health_score : Nat
  update_type : Option UpdateType
  error : Option (List Char)
  deriving DecidableEq, Repr

/-- `analyze_single_health` from `src/tools/service.rs`, with the network call
abstracted as the `fetch` oracle. -/
def analyze_single_health
    (fetch : MavenCoordinate → Except (List Char) CachedMetadata)
    (dependency : List Char) : DependencyHealthResult :=
  match MavenCoordinate.parse dependency with
  | .error e =>
    { dependency
      current_version := none
      latest_version := none
      age_classification := none
      health_score := 0
      update_type := none
      error := some e.message }
  | .ok coordinate =>
    match coordinate.version with
    | none =>
      { dependency := coordinate.to_ga
        current_version := none
        latest_version := none
        age_classification := none
        health_score := 0
        update_type := none
        error := some "Version is required for health analysis".data }
    | some current_version =>
      match fetch coordinate with
      | .error e =>
        { dependency := coordinate.to_ga
          current_version := some current_version
          latest_version := none
          age_classification := none
          health_score := 0
          update_type := none
          error := some e }
      | .ok metadata =>
        let result :=
          ageAndScore current_version metadata.stable_versions metadata.latest_stable
        { dependency := coordinate.to_ga
          current_version := some current_version
          latest_version := metadata.latest_stable
          age_classification := some result.1
          health_score := result.2
          update_type :=
            metadata.latest_stable.map fun latest =>
              UpdateType.between current_version latest
          error := none }

/-- The batch fan-out of `MavenToolsService::check_multiple_dependencies`
(`src/tools/service.rs`): one `check_single_dependency` per input, joined in
input order (`futures::future::join_all` over independent per-item futures). -/
def check_multiple_dependencies
    (fetch : MavenCoordinate → Except (List Char) CachedMetadata)
    (dependencies : List (List Char)) (stable_only : Bool) :
    List DependencyCheckResult :=
  dependencies.map fun dep => check_single_dependency fetch dep stable_only

/-- The batch fan-out of `MavenToolsService::analyze_project_health`
(`src/tools/service.rs`): one `analyze_single_health` per input, joined in
input order. -/
def analyze_project_health
    (fetch : MavenCoordinate → Except (List Char) CachedMetadata)
    (dependencies : List (List Char)) : List DependencyHealthResult :=
  dependencies.map fun dep => analyze_single_health fetch dep

/-- The `error_count` accumulation of `check_multiple_dependencies`
(`src/tools/service.rs`): errored results increment `error_count`; the
outdated/up-to-date counters are independent of it. -/
def countErrors (results : List DependencyCheckResult) : Nat :=
  results.foldl (fun n r => if r.error.isSome then n + 1 else n) 0

/-- The `stability` field computed by `MavenToolsService::check_version_exists`
(`src/tools/service.rs`, lines 201-213): classify the requested version only when
it occurs verbatim in `all_versions`. -/
def check_version_exists_stability (metadata : CachedMetadata)
    (version : List Char) : Option VersionStability :=
  let exists_ := metadata.all_versions.any (fun v => v == version)
  if exists_ then some (VersionStability.classify version) else none

/-! ## Definitions written from the claim wording (for refinement comparison) -/

/-- Stated from the claim wording only (C5): "extracts all maximal runs of ASCII
digits from each string in left-to-right order", with no `u64` bound.  Compared
against the source's `extract_numeric_parts`, which drops runs that overflow
`u64`. -/
def claimedExtractNumericParts (version : List Char) : List Nat :=
  ((splitP (fun c => !c.isDigit) version).filter fun s => !s.isEmpty).map digitsToNat

/-- `UpdateType::between` as the claim words it (C5), i.e. on the unbounded
extraction `claimedExtractNumericParts`. -/
def claimedBetween (current target : List Char) : UpdateType :=
  let current_parts := claimedExtractNumericParts current
  let target_parts := claimedExtractNumericParts target
  if current_parts.isEmpty || target_parts.isEmpty then .other
  else if target_parts.headD 0 ≠ current_parts.headD 0 then .major
  else if target_parts.getD 1 0 ≠ current_parts.getD 1 0 then .minor
  else .patch

/-! ## Concrete fixtures used by closed instances -/

/-- A concrete processed-metadata record, standing in for a successful
`get_metadata` result in closed instances. -/
def stubMetadata : CachedMetadata :=
  { all_versions := ["1.0.0".data]
    stable_versions := ["1.0.0".data]
    latest_stable := some "1.0.0".data
    latest_any := some "1.0.0".data
    latest_rc := none
    latest_beta := none
    latest_alpha := none
    latest_milestone := none
    last_updated := none }

/-- A fetch oracle that always succeeds with `stubMetadata`. -/
def stubFetch : MavenCoordinate → Except (List Char) CachedMetadata :=
  fun _ => .ok stubMetadata

/-- The raw version list of the end-to-end example in the spec and in the
`test_process_metadata` test of `src/maven/client.rs`. -/
def exampleVersions : List (List Char) :=
  ["1.0.0".data, "1.0.1".data, "1.5.0".data, "2.0.0-alpha".data,
    "2.0.0-beta".data, "2.0.0-RC1".data]

/-! ## Supporting lemmas -/

theorem cmpNat_self (n : Nat) : cmpNat n n = .eq := by
  simp [cmpNat]

theorem compare_qualifiers_self (s : List Char) : compare_qualifiers s s = .eq := by
  simp [compare_qualifiers, cmpNat_self]

theorem compareParts_cons_self (x : VersionPart) (a b : List VersionPart) :
    compareParts (x :: a) (x :: b) = compareParts a b := by
  cases x with
  | number n => simp [compareParts, cmpNat_self]
  | string s => simp [compareParts, compare_qualifiers_self]

theorem compareParts_append_left (p a b : List VersionPart) :
    compareParts (p ++ a) (p ++ b) = compareParts a b := by
  induction p with
  | nil => rfl
  | cons x xs ih => simpa [compareParts_cons_self] using ih

@[simp] theorem optOr_some (a : α) (b : Option α) : optOr (some a) b = some a := rfl

@[simp] theorem optOr_none (b : Option α) : optOr none b = b := rfl

theorem optOr_optOr_some (a : Option α) (v : α) (w : Option α) :
    optOr (optOr a (some v)) w = optOr a (some v) := by
  cases a <;> rfl

theorem mem_insertDesc (x p : List Char × MavenVersion)
    (l : List (List Char × MavenVersion)) :
    p ∈ insertDesc x l ↔ p = x ∨ p ∈ l := by
  induction l with
  | nil => simp [insertDesc]
  | cons y ys ih =>
    simp only [insertDesc]
    split
    · simp
    · simp [ih]; tauto

theorem mem_foldl_insertDesc (p : List Char × MavenVersion)
    (l acc : List (List Char × MavenVersion)) :
    p ∈ l.foldl (fun acc x => insertDesc x acc) acc ↔ p ∈ acc ∨ p ∈ l := by
  induction l generalizing acc with
  | nil => simp
  | cons x xs ih => simp [ih, mem_insertDesc]; tauto

theorem mem_sortByDesc (p : List Char × MavenVersion)
    (l : List (List Char × MavenVersion)) : p ∈ sortByDesc l ↔ p ∈ l := by
  simp [sortByDesc, mem_foldl_insertDesc]

theorem parsePartsLoop_parts (parts : List VersionPart) (current : List Char)
    (inNumber : Bool) (l : List Char) :
    parsePartsLoop parts current inNumber l =
      parts ++ parsePartsLoop [] current inNumber l := by
  induction l generalizing parts current inNumber with
  | nil => simp [parsePartsLoop]
  | cons c rest ih =>
    simp only [parsePartsLoop, List.nil_append]
    rw [ih (parts ++ (partStep current inNumber c).1),
      ih (partStep current inNumber c).1, List.append_assoc]

theorem parsePartsLoop_append_sep (c : Char)
    (hsep : (c == '.' || c == '-' || c == '_') = true) (hd : c.isDigit = false)
    (b : List Char) :
    ∀ (a current : List Char) (inNumber : Bool),
      parsePartsLoop [] current inNumber (a ++ c :: b) =
        parsePartsLoop [] current inNumber a ++ parsePartsLoop [] [] false b := by
  intro a
  induction a with
  | nil =>
    intro current inNumber
    have hstep : partStep current inNumber c = (flushPart inNumber current, [], false) := by
      simp [partStep, hd, hsep]
    simp only [List.nil_append, parsePartsLoop, hstep]
    rw [parsePartsLoop_parts]
  | cons d rest ih =>
    intro current inNumber
    simp only [List.cons_append, parsePartsLoop, List.nil_append]
    rw [parsePartsLoop_parts, parsePartsLoop_parts ((partStep current inNumber d).1)]
    simp only [List.append_eq]
    rw [ih, List.append_assoc]

theorem parse_parts_append_sep (c : Char)
    (hsep : (c == '.' || c == '-' || c == '_') = true) (hd : c.isDigit = false)
    (a b : List Char) :
    parse_parts (a ++ c :: b) = parse_parts a ++ parse_parts b := by
  simpa [parse_parts] using parsePartsLoop_append_sep c hsep hd b a [] false

theorem parsePartsLoop_all_digits (s : List Char) (h : s.all Char.isDigit = true) :
    ∀ current : List Char, current.isEmpty = false →
      parsePartsLoop [] current true s = [.number (parseU64OrZero (current ++ s))] := by
  induction s with
  | nil =>
    intro current hc
    simp [parsePartsLoop, flushPart, hc]
  | cons c cs ih =>
    intro current hc
    simp only [List.all_cons, Bool.and_eq_true] at h
    have hstep : partStep current true c = ([], current ++ [c], true) := by
      simp [partStep, h.1]
    have := ih h.2 (current ++ [c]) (by simp)
    simp only [parsePartsLoop, hstep, List.append_nil, List.nil_append]
    rw [this, List.append_assoc]
    rfl

theorem parse_parts_all_digits (s : List Char) (h : s.all Char.isDigit = true)
    (hne : s ≠ []) : parse_parts s = [.number (parseU64OrZero s)] := by
  cases s with
  | nil => exact absurd rfl hne
  | cons c cs =>
    simp only [List.all_cons, Bool.and_eq_true] at h
    have hstep : partStep [] false c = ([], [c], true) := by
      simp [partStep, h.1]
    have := parsePartsLoop_all_digits cs h.2 [c] (by simp)
    simp only [parse_parts, parsePartsLoop, hstep, List.append_nil, List.nil_append]
    simpa using this
theorem stability_beq_eq (a b : VersionStability) : (a == b) = decide (a = b) := by
  cases a <;> cases b <;> rfl

theorem foldl_categorize_all_versions (l : List (List Char × MavenVersion))
    (st : CachedMetadata) :
    (l.foldl categorizeStep st).all_versions = st.all_versions := by
  induction l generalizing st with
  | nil => rfl
  | cons p ps ih =>
    rw [List.foldl_cons, ih]
    cases h : p.2.stability <;> simp [categorizeStep, h, stability_beq_eq]

theorem foldl_categorize_last_updated (l : List (List Char × MavenVersion))
    (st : CachedMetadata) :
    (l.foldl categorizeStep st).last_updated = st.last_updated := by
  induction l generalizing st with
  | nil => rfl
  | cons p ps ih =>
    rw [List.foldl_cons, ih]
    cases h : p.2.stability <;> simp [categorizeStep, h, stability_beq_eq]

theorem foldl_categorize_latest_any (l : List (List Char × MavenVersion))
    (st : CachedMetadata) :
    (l.foldl categorizeStep st).latest_any =
      optOr st.latest_any ((l.head?).map Prod.fst) := by
  induction l generalizing st with
  | nil => cases hst : st.latest_any <;> simp [hst, optOr]
  | cons p ps ih =>
    rw [List.foldl_cons, ih]
    have hstep : (categorizeStep st p).latest_any = optOr st.latest_any (some p.1) := by
      cases h : p.2.stability <;> simp [categorizeStep, h, stability_beq_eq]
    rw [hstep]
    simp [optOr_optOr_some]

theorem foldl_categorize_latest_stable (l : List (List Char × MavenVersion))
    (st : CachedMetadata) :
    (l.foldl categorizeStep st).latest_stable =
      optOr st.latest_stable
        ((l.find? fun p => p.2.stability == .stable).map Prod.fst) := by
  induction l generalizing st with
  | nil => cases hst : st.latest_stable <;> simp [hst, optOr]
  | cons p ps ih =>
    rw [List.foldl_cons, ih, List.find?_cons]
    cases h : p.2.stability <;>
      simp [categorizeStep, h, stability_beq_eq, optOr_optOr_some]

theorem foldl_categorize_latest_rc (l : List (List Char × MavenVersion))
    (st : CachedMetadata) :
    (l.foldl categorizeStep st).latest_rc =
      optOr st.latest_rc ((l.find? fun p => p.2.stability == .rc).map Prod.fst) := by
  induction l generalizing st with
  | nil => cases hst : st.latest_rc <;> simp [hst, optOr]
  | cons p ps ih =>
    rw [List.foldl_cons, ih, List.find?_cons]
    cases h : p.2.stability <;>
      simp [categorizeStep, h, stability_beq_eq, optOr_optOr_some]

theorem foldl_categorize_latest_beta (l : List (List Char × MavenVersion))
    (st : CachedMetadata) :
    (l.foldl categorizeStep st).latest_beta =
      optOr st.latest_beta ((l.find? fun p => p.2.stability == .beta).map Prod.fst) := by
  induction l generalizing st with
  | nil => cases hst : st.latest_beta <;> simp [hst, optOr]
  | cons p ps ih =>
    rw [List.foldl_cons, ih, List.find?_cons]
    cases h : p.2.stability <;>
      simp [categorizeStep, h, stability_beq_eq, optOr_optOr_some]

theorem foldl_categorize_latest_alpha (l : List (List Char × MavenVersion))
    (st : CachedMetadata) :
    (l.foldl categorizeStep st).latest_alpha =
      optOr st.latest_alpha ((l.find? fun p => p.2.stability == .alpha).map Prod.fst) := by
  induction l generalizing st with
  | nil => cases hst : st.latest_alpha <;> simp [hst, optOr]
  | cons p ps ih =>
    rw [List.foldl_cons, ih, List.find?_cons]
    cases h : p.2.stability <;>
      simp [categorizeStep, h, stability_beq_eq, optOr_optOr_some]

theorem foldl_categorize_latest_milestone (l : List (List Char × MavenVersion))
    (st : CachedMetadata) :
    (l.foldl categorizeStep st).latest_milestone =
      optOr st.latest_milestone
        ((l.find? fun p => p.2.stability == .milestone).map Prod.fst) := by
  induction l generalizing st with
  | nil => cases hst : st.latest_milestone <;> simp [hst, optOr]
  | cons p ps ih =>
    rw [List.foldl_cons, ih, List.find?_cons]
    cases h : p.2.stability <;>
      simp [categorizeStep, h, stability_beq_eq, optOr_optOr_some]

theorem foldl_categorize_stable_versions (l : List (List Char × MavenVersion))
    (st : CachedMetadata) :
    (l.foldl categorizeStep st).stable_versions =
      st.stable_versions ++ (l.filter fun p => p.2.stability == .stable).map Prod.fst := by
  induction l generalizing st with
  | nil => simp
  | cons p ps ih =>
    rw [List.foldl_cons, ih, List.filter_cons]
    cases h : p.2.stability <;> simp [categorizeStep, h, stability_beq_eq]

theorem countErrors_go (l : List DependencyCheckResult) (n : Nat) :
    l.foldl (fun n r => if r.error.isSome then n + 1 else n) n =
      n + (l.filter fun r => r.error.isSome).length := by
  induction l generalizing n with
  | nil => simp
  | cons r rs ih =>
    by_cases h : r.error.isSome
    · simp [h, ih, List.filter_cons]
      omega
    · simp [h, ih, List.filter_cons]

/-! ## Claim theorems -/

/-- C1 (code bug): `MavenVersion::compare` is not transitive, although the spec
and the `Ord` contract require a total order.  Concretely
`1.0.0 < 1.0.0-foo` (unknown text beats a missing token), `1.0.0-foo` and
`1.0.0-m` compare Equal (both have qualifier priority 3), yet
`1.0.0 > 1.0.0-m` (`m` is a known qualifier). -/
theorem compare_violates_transitivity :
    MavenVersion.compare (MavenVersion.parse "1.0.0".data)
        (MavenVersion.parse "1.0.0-foo".data) = .lt ∧
    MavenVersion.compare (MavenVersion.parse "1.0.0-foo".data)
        (MavenVersion.parse "1.0.0-m".data) = .eq ∧
    MavenVersion.compare (MavenVersion.parse "1.0.0".data)
        (MavenVersion.parse "1.0.0-m".data) = .gt := by
  refine ⟨by decide, by decide, by decide⟩

/-- C2: at the first diverging index, a Number token against a Text token
compares Greater exactly when the text is a known qualifier (and the Text side
correspondingly Less), the known qualifiers being exactly
alpha, beta, rc, cr, snapshot, m, milestone, a, b; consequently
`1.0.0-alpha < 1.0.0` while `1.0.0-foo > 1.0.0`. -/
theorem compare_number_vs_text_qualifier_rule :
    (∀ (p r₁ r₂ : List VersionPart) (n : Nat) (s : List Char),
      compareParts (p ++ VersionPart.number n :: r₁)
          (p ++ VersionPart.string s :: r₂) =
        if is_qualifier s then .gt else .lt) ∧
    (∀ (p r₁ r₂ : List VersionPart) (n : Nat) (s : List Char),
      compareParts (p ++ VersionPart.string s :: r₁)
          (p ++ VersionPart.number n :: r₂) =
        if is_qualifier s then .lt else .gt) ∧
    (∀ s : List Char,
      is_qualifier s = true ↔
        toLowerList s ∈ ["alpha".data, "beta".data, "rc".data, "cr".data,
          "snapshot".data, "m".data, "milestone".data, "a".data, "b".data]) ∧
    MavenVersion.compare (MavenVersion.parse "1.0.0-alpha".data)
        (MavenVersion.parse "1.0.0".data) = .lt ∧
    MavenVersion.compare (MavenVersion.parse "1.0.0-foo".data)
        (MavenVersion.parse "1.0.0".data) = .gt := by
  refine ⟨?_, ?_, ?_, by decide, by decide⟩
  · intro p r₁ r₂ n s
    rw [compareParts_append_left]
    rfl
  · intro p r₁ r₂ n s
    rw [compareParts_append_left]
    rfl
  · intro s
    simp [is_qualifier]
    tauto

/-- C5 counterexample: a maximal digit run whose value exceeds `u64::MAX` is
dropped by `extract_numeric_parts` (Rust `parse::<u64>().ok()`), so
`between("18446744073709551616", "2")` is Other, while the claim's unbounded
extraction mandates Major. -/
theorem between_overflow_counterexample :
    UpdateType.between "18446744073709551616".data "2".data = .other ∧
    claimedBetween "18446744073709551616".data "2".data = .major ∧
    extract_numeric_parts "18446744073709551616".data = [] ∧
    claimedExtractNumericParts "18446744073709551616".data =
      [18446744073709551616] := by
  refine ⟨by decide, by decide, by decide, by decide⟩

/-- C5 (amended): `between` is Other iff either side's extraction (maximal digit
runs whose value fits in `u64`) is empty, Major iff both are non-empty and the
first numbers differ, Minor iff the firsts agree and the seconds (defaulting
to 0) differ, and Patch otherwise, regardless of later runs; with the four
concrete examples of the claim. -/
theorem between_spec :
    (∀ current target : List Char,
      (UpdateType.between current target = .other ↔
        extract_numeric_parts current = [] ∨ extract_numeric_parts target = []) ∧
      (UpdateType.between current target = .major ↔
        extract_numeric_parts current ≠ [] ∧ extract_numeric_parts target ≠ [] ∧
          (extract_numeric_parts target).headD 0 ≠
            (extract_numeric_parts current).headD 0) ∧
      (UpdateType.between current target = .minor ↔
        extract_numeric_parts current ≠ [] ∧ extract_numeric_parts target ≠ [] ∧
          (extract_numeric_parts target).headD 0 =
            (extract_numeric_parts current).headD 0 ∧
          (extract_numeric_parts target).getD 1 0 ≠
            (extract_numeric_parts current).getD 1 0) ∧
      (UpdateType.between current target = .patch ↔
        extract_numeric_parts current ≠ [] ∧ extract_numeric_parts target ≠ [] ∧
          (extract_numeric_parts target).headD 0 =
            (extract_numeric_parts current).headD 0 ∧
          (extract_numeric_parts target).getD 1 0 =
            (extract_numeric_parts current).getD 1 0)) ∧
    (∀ version : List Char,
      extract_numeric_parts version =
        ((splitP (fun c => !c.isDigit) version).filter fun s => !s.isEmpty).filterMap
          fun s => if digitsToNat s < 2 ^ 64 then some (digitsToNat s) else none) ∧
    UpdateType.between "1.0.0".data "2.0.0".data = .major ∧
    UpdateType.between "1.0.0".data "1.1.0".data = .minor ∧
    UpdateType.between "1.0.0".data "1.0.1".data = .patch ∧
    UpdateType.between "1.0.0".data "1.0.0".data = .patch := by
  refine ⟨?_, ?_, by decide, by decide, by decide, by decide⟩
  · intro current target
    simp only [UpdateType.between]
    split_ifs with h1 h2 h3 <;>
      · simp_all [List.isEmpty_iff, Bool.or_eq_true]
        try tauto
  · intro version
    rfl

/-- C6: stability classification is total, applies its checks in the fixed order
Snapshot, Alpha, Beta, RC, Milestone on the upper-cased string with first match
winning and default Stable, the Milestone branch additionally requiring a token
`M<digits>` after splitting on non-alphanumeric characters; with the claim's
three concrete instances. -/
theorem classify_spec :
    (∀ s : List Char,
      (VersionStability.classify s = .snapshot ↔
        containsSub (toUpperList s) "SNAPSHOT".data = true) ∧
      (VersionStability.classify s = .alpha ↔
        containsSub (toUpperList s) "SNAPSHOT".data = false ∧
          (containsSub (toUpperList s) "ALPHA".data ||
            containsSub (toUpperList s) "-A.".data ||
            endsWithList (toUpperList s) "-A".data) = true) ∧
      (VersionStability.classify s = .beta ↔
        containsSub (toUpperList s) "SNAPSHOT".data = false ∧
          (containsSub (toUpperList s) "ALPHA".data ||
            containsSub (toUpperList s) "-A.".data ||
            endsWithList (toUpperList s) "-A".data) = false ∧
          (containsSub (toUpperList s) "BETA".data ||
            containsSub (toUpperList s) "-B.".data ||
            endsWithList (toUpperList s) "-B".data) = true) ∧
      (VersionStability.classify s = .rc ↔
        containsSub (toUpperList s) "SNAPSHOT".data = false ∧
          (containsSub (toUpperList s) "ALPHA".data ||
            containsSub (toUpperList s) "-A.".data ||
            endsWithList (toUpperList s) "-A".data) = false ∧
          (containsSub (toUpperList s) "BETA".data ||
            containsSub (toUpperList s) "-B.".data ||
            endsWithList (toUpperList s) "-B".data) = false ∧
          (containsSub (toUpperList s) "-RC".data ||
            containsSub (toUpperList s) ".RC".data ||
            containsSub (toUpperList s) "-CR".data ||
            containsSub (toUpperList s) ".CR".data) = true) ∧
      (VersionStability.classify s = .milestone ↔
        containsSub (toUpperList s) "SNAPSHOT".data = false ∧
          (containsSub (toUpperList s) "ALPHA".data ||
            containsSub (toUpperList s) "-A.".data ||
            endsWithList (toUpperList s) "-A".data) = false ∧
          (containsSub (toUpperList s) "BETA".data ||
            containsSub (toUpperList s) "-B.".data ||
            endsWithList (toUpperList s) "-B".data) = false ∧
          (containsSub (toUpperList s) "-RC".data ||
            containsSub (toUpperList s) ".RC".data ||
            containsSub (toUpperList s) "-CR".data ||
            containsSub (toUpperList s) ".CR".data) = false ∧
          ((containsSub (toUpperList s) "-M".data ||
              containsSub (toUpperList s) ".M".data) &&
            (splitP (fun c => !c.isAlphanum) (toUpperList s)).any
              isMilestoneToken) = true) ∧
      (VersionStability.classify s = .stable ↔
        containsSub (toUpperList s) "SNAPSHOT".data = false ∧
          (containsSub (toUpperList s) "ALPHA".data ||
            containsSub (toUpperList s) "-A.".data ||
            endsWithList (toUpperList s) "-A".data) = false ∧
          (containsSub (toUpperList s) "BETA".data ||
            containsSub (toUpperList s) "-B.".data ||
            endsWithList (toUpperList s) "-B".data) = false ∧
          (containsSub (toUpperList s) "-RC".data ||
            containsSub (toUpperList s) ".RC".data ||
            containsSub (toUpperList s) "-CR".data ||
            containsSub (toUpperList s) ".CR".data) = false ∧
          ((containsSub (toUpperList s) "-M".data ||
              containsSub (toUpperList s) ".M".data) &&
            (splitP (fun c => !c.isAlphanum) (toUpperList s)).any
              isMilestoneToken) = false)) ∧
    VersionStability.classify "1.0.0-SNAPSHOT".data = .snapshot ∧
    VersionStability.classify "1.0.0.M2".data = .milestone ∧
    VersionStability.classify "1.0.0-M".data = .stable := by
  refine ⟨?_, by decide, by decide, by decide⟩
  intro s
  simp only [VersionStability.classify]
  cases h1 : containsSub (toUpperList s) "SNAPSHOT".data <;>
    cases h2 : (containsSub (toUpperList s) "ALPHA".data ||
      containsSub (toUpperList s) "-A.".data ||
      endsWithList (toUpperList s) "-A".data) <;>
      cases h3 : (containsSub (toUpperList s) "BETA".data ||
        containsSub (toUpperList s) "-B.".data ||
        endsWithList (toUpperList s) "-B".data) <;>
        cases h4 : (containsSub (toUpperList s) "-RC".data ||
          containsSub (toUpperList s) ".RC".data ||
          containsSub (toUpperList s) "-CR".data ||
          containsSub (toUpperList s) ".CR".data) <;>
          cases h5 : ((containsSub (toUpperList s) "-M".data ||
              containsSub (toUpperList s) ".M".data) &&
            (splitP (fun c => !c.isAlphanum) (toUpperList s)).any
              isMilestoneToken) <;>
            simp

/-- C7: tokenization is total; `.`, `-`, `_` flush the current run and are
discarded (so tokenizing splits across them); a digit/non-digit transition
flushes without a separator (`"alpha1"` gives Text "alpha", Number 1, and
`"1a"` gives Number 1, Text "a"); and an all-digit run parses to its value when
it fits `u64` and is clamped to Number 0 on overflow instead of failing. -/
theorem tokenizer_spec :
    (∀ a b : List Char, parse_parts (a ++ '.' :: b) = parse_parts a ++ parse_parts b) ∧
    (∀ a b : List Char, parse_parts (a ++ '-' :: b) = parse_parts a ++ parse_parts b) ∧
    (∀ a b : List Char, parse_parts (a ++ '_' :: b) = parse_parts a ++ parse_parts b) ∧
    parse_parts "alpha1".data = [.string "alpha".data, .number 1] ∧
    parse_parts "1a".data = [.number 1, .string "a".data] ∧
    (∀ s : List Char, s.all Char.isDigit = true → s ≠ [] →
      parse_parts s = [.number (parseU64OrZero s)]) ∧
    (∀ s : List Char, s.all Char.isDigit = true → s ≠ [] →
      2 ^ 64 ≤ digitsToNat s → parse_parts s = [.number 0]) := by
  refine ⟨fun a b => parse_parts_append_sep '.' (by decide) (by decide) a b,
    fun a b => parse_parts_append_sep '-' (by decide) (by decide) a b,
    fun a b => parse_parts_append_sep '_' (by decide) (by decide) a b,
    by decide, by decide, parse_parts_all_digits, ?_⟩
  intro s h hne hbig
  rw [parse_parts_all_digits s h hne]
  have hnlt : ¬ digitsToNat s < 2 ^ 64 := Nat.not_lt.mpr hbig
  simp only [parseU64OrZero]
  rw [if_neg hnlt]

/-- C7 witness: the separator rule at `"1" ++ "." ++ "0"` and clamping of the
overflowing run `"18446744073709551616"` (= 2^64). -/
theorem tokenizer_spec_witness :
    parse_parts ("1".data ++ '.' :: "0".data) =
      parse_parts "1".data ++ parse_parts "0".data ∧
    parse_parts "18446744073709551616".data = [.number 0] := by
  exact ⟨tokenizer_spec.1 "1".data "0".data,
    tokenizer_spec.2.2.2.2.2.2 "18446744073709551616".data (by decide) (by decide)
      (by decide)⟩

/-- C3 counterexample: `latest_any` is set from the first sorted element before
the stability dispatch, so a Snapshot-tier version can occupy the `latest_any`
field, contrary to "excluded from every latest_x field". -/
theorem process_metadata_snapshot_latest_any :
    (process_metadata ["1.0.0".data, "2.0.0-SNAPSHOT".data] none).latest_any =
      some "2.0.0-SNAPSHOT".data ∧
    VersionStability.classify "2.0.0-SNAPSHOT".data = .snapshot := by
  exact ⟨by decide, by decide⟩

/-- C3 (amended): `process_metadata` stable-sorts descending; `all_versions` is
the sorted list; `latest_any` is its first element (even when that element is
Snapshot-tier); each of the five tiers Stable/RC/Beta/Alpha/Milestone gets its
first sorted element as its latest field; `stable_versions` is the sorted
sublist of Stable elements; Snapshot elements are excluded from the five tier
latest fields and from `stable_versions` while remaining in `all_versions`; and
the end-to-end example produces exactly the claimed record. -/
theorem process_metadata_spec :
    (∀ (versions : List (List Char)) (last_updated : Option (List Char)),
      (process_metadata versions last_updated).all_versions =
        (sortByDesc (versions.map fun v => (v, MavenVersion.parse v))).map Prod.fst ∧
      (process_metadata versions last_updated).latest_any =
        ((sortByDesc (versions.map fun v => (v, MavenVersion.parse v))).head?).map
          Prod.fst ∧
      (process_metadata versions last_updated).latest_stable =
        ((sortByDesc (versions.map fun v => (v, MavenVersion.parse v))).find? fun p =>
          p.2.stability == VersionStability.stable).map Prod.fst ∧
      (process_metadata versions last_updated).latest_rc =
        ((sortByDesc (versions.map fun v => (v, MavenVersion.parse v))).find? fun p =>
          p.2.stability == VersionStability.rc).map Prod.fst ∧
      (process_metadata versions last_updated).latest_beta =
        ((sortByDesc (versions.map fun v => (v, MavenVersion.parse v))).find? fun p =>
          p.2.stability == VersionStability.beta).map Prod.fst ∧
      (process_metadata versions last_updated).latest_alpha =
        ((sortByDesc (versions.map fun v => (v, MavenVersion.parse v))).find? fun p =>
          p.2.stability == VersionStability.alpha).map Prod.fst ∧
      (process_metadata versions last_updated).latest_milestone =
        ((sortByDesc (versions.map fun v => (v, MavenVersion.parse v))).find? fun p =>
          p.2.stability == VersionStability.milestone).map Prod.fst ∧
      (process_metadata versions last_updated).stable_versions =
        ((sortByDesc (versions.map fun v => (v, MavenVersion.parse v))).filter fun p =>
          p.2.stability == VersionStability.stable).map Prod.fst ∧
      (process_metadata versions last_updated).last_updated = last_updated ∧
      (∀ v ∈ versions, v ∈ (process_metadata versions last_updated).all_versions) ∧
      (∀ v, (process_metadata versions last_updated).latest_stable = some v →
        VersionStability.classify v = .stable) ∧
      (∀ v, (process_metadata versions last_updated).latest_rc = some v →
        VersionStability.classify v = .rc) ∧
      (∀ v, (process_metadata versions last_updated).latest_beta = some v →
        VersionStability.classify v = .beta) ∧
      (∀ v, (process_metadata versions last_updated).latest_alpha = some v →
        VersionStability.classify v = .alpha) ∧
      (∀ v, (process_metadata versions last_updated).latest_milestone = some v →
        VersionStability.classify v = .milestone) ∧
      (∀ v ∈ (process_metadata versions last_updated).stable_versions,
        VersionStability.classify v = .stable) ∧
      (∀ v, VersionStability.classify v = .snapshot →
        v ∉ (process_metadata versions last_updated).stable_versions ∧
        (process_metadata versions last_updated).latest_stable ≠ some v ∧
        (process_metadata versions last_updated).latest_rc ≠ some v ∧
        (process_metadata versions last_updated).latest_beta ≠ some v ∧
        (process_metadata versions last_updated).latest_alpha ≠ some v ∧
        (process_metadata versions last_updated).latest_milestone ≠ some v)) ∧
    process_metadata exampleVersions none =
      { all_versions := ["2.0.0-RC1".data, "2.0.0-beta".data, "2.0.0-alpha".data,
          "1.5.0".data, "1.0.1".data, "1.0.0".data]
        stable_versions := ["1.5.0".data, "1.0.1".data, "1.0.0".data]
        latest_stable := some "1.5.0".data
        latest_any := some "2.0.0-RC1".data
        latest_rc := some "2.0.0-RC1".data
        latest_beta := some "2.0.0-beta".data
        latest_alpha := some "2.0.0-alpha".data
        latest_milestone := none
        last_updated := none } := by
  refine ⟨?_, by decide⟩
  intro versions last_updated
  have hm : process_metadata versions last_updated =
      (sortByDesc (versions.map fun v => (v, MavenVersion.parse v))).foldl
        categorizeStep
        { all_versions :=
            (sortByDesc (versions.map fun v => (v, MavenVersion.parse v))).map Prod.fst
          stable_versions := []
          latest_stable := none
          latest_any := none
          latest_rc := none
          latest_beta := none
          latest_alpha := none
          latest_milestone := none
          last_updated } := rfl
  have hparse : ∀ p ∈ sortByDesc (versions.map fun v => (v, MavenVersion.parse v)),
      p.2 = MavenVersion.parse p.1 := by
    intro p hp
    rw [mem_sortByDesc] at hp
    obtain ⟨v, _, rfl⟩ := List.mem_map.mp hp
    rfl
  have hall : (process_metadata versions last_updated).all_versions =
      (sortByDesc (versions.map fun v => (v, MavenVersion.parse v))).map Prod.fst := by
    rw [hm, foldl_categorize_all_versions]
  have hany : (process_metadata versions last_updated).latest_any =
      ((sortByDesc (versions.map fun v => (v, MavenVersion.parse v))).head?).map
        Prod.fst := by
    rw [hm, foldl_categorize_latest_any]
    rfl
  have hstab : (process_metadata versions last_updated).latest_stable =
      ((sortByDesc (versions.map fun v => (v, MavenVersion.parse v))).find? fun p =>
        p.2.stability == VersionStability.stable).map Prod.fst := by
    rw [hm, foldl_categorize_latest_stable]
    rfl
  have hrc : (process_metadata versions last_updated).latest_rc =
      ((sortByDesc (versions.map fun v => (v, MavenVersion.parse v))).find? fun p =>
        p.2.stability == VersionStability.rc).map Prod.fst := by
    rw [hm, foldl_categorize_latest_rc]
    rfl
  have hbeta : (process_metadata versions last_updated).latest_beta =
      ((sortByDesc (versions.map fun v => (v, MavenVersion.parse v))).find? fun p =>
        p.2.stability == VersionStability.beta).map Prod.fst := by
    rw [hm, foldl_categorize_latest_beta]
    rfl
  have halpha : (process_metadata versions last_updated).latest_alpha =
      ((sortByDesc (versions.map fun v => (v, MavenVersion.parse v))).find? fun p =>
        p.2.stability == VersionStability.alpha).map Prod.fst := by
    rw [hm, foldl_categorize_latest_alpha]
    rfl
  have hmile : (process_metadata versions last_updated).latest_milestone =
      ((sortByDesc (versions.map fun v => (v, MavenVersion.parse v))).find? fun p =>
        p.2.stability == VersionStability.milestone).map Prod.fst := by
    rw [hm, foldl_categorize_latest_milestone]
    rfl
  have hsv : (process_metadata versions last_updated).stable_versions =
      ((sortByDesc (versions.map fun v => (v, MavenVersion.parse v))).filter fun p =>
        p.2.stability == VersionStability.stable).map Prod.fst := by
    rw [hm, foldl_categorize_stable_versions]
    simp
  have hlu : (process_metadata versions last_updated).last_updated = last_updated := by
    rw [hm, foldl_categorize_last_updated]
  have hfind : ∀ (t : VersionStability) (v : List Char),
      ((sortByDesc (versions.map fun v => (v, MavenVersion.parse v))).find? fun p =>
        p.2.stability == t).map Prod.fst = some v →
      VersionStability.classify v = t := by
    intro t v hv
    obtain ⟨q, hq, hq1⟩ := Option.map_eq_some'.mp hv
    have hpred := List.find?_some hq
    have hqmem := List.mem_of_find?_eq_some hq
    rw [stability_beq_eq, decide_eq_true_iff] at hpred
    rw [hparse q hqmem] at hpred
    rw [← hq1]
    exact hpred
  have hsvc : ∀ v ∈ (process_metadata versions last_updated).stable_versions,
      VersionStability.classify v = .stable := by
    intro v hv
    rw [hsv] at hv
    obtain ⟨q, hq, hq1⟩ := List.mem_map.mp hv
    have hpred := List.of_mem_filter hq
    have hqmem := List.mem_of_mem_filter hq
    rw [stability_beq_eq, decide_eq_true_iff] at hpred
    rw [hparse q hqmem] at hpred
    rw [← hq1]
    exact hpred
  refine ⟨hall, hany, hstab, hrc, hbeta, halpha, hmile, hsv, hlu, ?_,
    fun v hv => hfind .stable v (hstab ▸ hv),
    fun v hv => hfind .rc v (hrc ▸ hv),
    fun v hv => hfind .beta v (hbeta ▸ hv),
    fun v hv => hfind .alpha v (halpha ▸ hv),
    fun v hv => hfind .milestone v (hmile ▸ hv), hsvc, ?_⟩
  · intro v hv
    rw [hall]
    have : (v, MavenVersion.parse v) ∈
        sortByDesc (versions.map fun w => (w, MavenVersion.parse w)) := by
      rw [mem_sortByDesc]
      exact List.mem_map_of_mem _ hv
    exact List.mem_map_of_mem Prod.fst this
  · intro v hsnap
    refine ⟨fun hmem => ?_, fun heq => ?_, fun heq => ?_, fun heq => ?_,
      fun heq => ?_, fun heq => ?_⟩
    · have h := hsvc v hmem
      rw [hsnap] at h
      exact absurd h (by decide)
    · have h := hfind .stable v (hstab ▸ heq)
      rw [hsnap] at h
      exact absurd h (by decide)
    · have h := hfind .rc v (hrc ▸ heq)
      rw [hsnap] at h
      exact absurd h (by decide)
    · have h := hfind .beta v (hbeta ▸ heq)
      rw [hsnap] at h
      exact absurd h (by decide)
    · have h := hfind .alpha v (halpha ▸ heq)
      rw [hsnap] at h
      exact absurd h (by decide)
    · have h := hfind .milestone v (hmile ▸ heq)
      rw [hsnap] at h
      exact absurd h (by decide)

/-- C3 witness: the tier-latest characterization applied to the end-to-end
example: `latest_stable` is `"1.5.0"` and it classifies as Stable. -/
theorem process_metadata_spec_witness :
    VersionStability.classify "1.5.0".data = .stable := by
  exact (process_metadata_spec.1 exampleVersions none).2.2.2.2.2.2.2.2.2.2.1
    "1.5.0".data (by decide)

/-- C4: the age/health scorer counts the stable versions strictly greater than
`current` under the comparator and maps `n = 0` to Current/100, `1 ≤ n ≤ 2` to
Fresh/90, `3 ≤ n ≤ 5` to Aging/70, and `n > 5` to Outdated/40 exactly when a
`latest_stable` exists with a Major delta from `current`, else Stale/50
(including when `latest_stable` is absent). -/
theorem age_health_scorer_spec :
    ∀ (current : List Char) (stable_versions : List (List Char))
      (latest_stable : Option (List Char)),
      (((stable_versions.filter fun v =>
          MavenVersion.compare (MavenVersion.parse v)
            (MavenVersion.parse current) = .gt).length = 0) →
        ageAndScore current stable_versions latest_stable =
          (.current, 100)) ∧
      ((1 ≤ (stable_versions.filter fun v =>
          MavenVersion.compare (MavenVersion.parse v)
            (MavenVersion.parse current) = .gt).length ∧
        (stable_versions.filter fun v =>
          MavenVersion.compare (MavenVersion.parse v)
            (MavenVersion.parse current) = .gt).length ≤ 2) →
        ageAndScore current stable_versions latest_stable = (.fresh, 90)) ∧
      ((3 ≤ (stable_versions.filter fun v =>
          MavenVersion.compare (MavenVersion.parse v)
            (MavenVersion.parse current) = .gt).length ∧
        (stable_versions.filter fun v =>
          MavenVersion.compare (MavenVersion.parse v)
            (MavenVersion.parse current) = .gt).length ≤ 5) →
        ageAndScore current stable_versions latest_stable = (.aging, 70)) ∧
      ((5 < (stable_versions.filter fun v =>
          MavenVersion.compare (MavenVersion.parse v)
            (MavenVersion.parse current) = .gt).length) →
        (∀ latest, latest_stable = some latest →
          (UpdateType.between current latest = .major →
            ageAndScore current stable_versions latest_stable = (.outdated, 40)) ∧
          (UpdateType.between current latest ≠ .major →
            ageAndScore current stable_versions latest_stable = (.stale, 50))) ∧
        (latest_stable = none →
          ageAndScore current stable_versions latest_stable = (.stale, 50))) := by
  intro current stable_versions latest_stable
  simp only [ageAndScore]
  refine ⟨?_, ?_, ?_, ?_⟩
  · intro h
    simp [h]
  · intro h
    rw [if_neg (by omega), if_pos (by omega)]
  · intro h
    rw [if_neg (by omega), if_neg (by omega), if_pos (by omega)]
  · intro h
    refine ⟨?_, ?_⟩
    · intro latest hl
      subst hl
      rw [if_neg (by omega), if_neg (by omega), if_neg (by omega)]
      constructor
      · intro hmaj
        simp [hmaj]
      · intro hmaj
        simp [hmaj]
    · intro hl
      subst hl
      rw [if_neg (by omega), if_neg (by omega), if_neg (by omega)]

/-- C4 witness: three stable versions newer than `1.0.0` put it in the Aging
tier with score 70. -/
theorem age_health_scorer_spec_witness :
    ageAndScore "1.0.0".data ["2.0.0".data, "3.0.0".data, "4.0.0".data]
      (some "4.0.0".data) = (.aging, 70) := by
  exact (age_health_scorer_spec "1.0.0".data
    ["2.0.0".data, "3.0.0".data, "4.0.0".data] (some "4.0.0".data)).2.2.1
    (by decide)

/-- C8: coordinate parsing trims, splits on `:`, succeeds exactly for 2-5
segments with non-empty trimmed group and artifact; 2 segments give no version;
3-5 segments take the trimmed last segment as the version, normalized to `none`
when empty; empty group/artifact give the distinct errors EmptyGroupId /
EmptyArtifactId; any other segment count gives InvalidFormat carrying the
(trimmed) input. -/
theorem coordinate_parse_spec :
    ∀ raw : List Char,
      ((∃ c, MavenCoordinate.parse raw = .ok c) ↔
        ((splitP (fun ch => ch == ':') (trimList raw)).length = 2 ∨
          (splitP (fun ch => ch == ':') (trimList raw)).length = 3 ∨
          (splitP (fun ch => ch == ':') (trimList raw)).length = 4 ∨
          (splitP (fun ch => ch == ':') (trimList raw)).length = 5) ∧
        trimList ((splitP (fun ch => ch == ':') (trimList raw)).getD 0 []) ≠ [] ∧
        trimList ((splitP (fun ch => ch == ':') (trimList raw)).getD 1 []) ≠ []) ∧
      (∀ c, MavenCoordinate.parse raw = .ok c →
        c.group_id = trimList ((splitP (fun ch => ch == ':') (trimList raw)).getD 0 []) ∧
        c.artifact_id = trimList ((splitP (fun ch => ch == ':') (trimList raw)).getD 1 [])) ∧
      ((splitP (fun ch => ch == ':') (trimList raw)).length = 2 →
        ∀ c, MavenCoordinate.parse raw = .ok c → c.version = none) ∧
      (((splitP (fun ch => ch == ':') (trimList raw)).length = 3 ∨
        (splitP (fun ch => ch == ':') (trimList raw)).length = 4 ∨
        (splitP (fun ch => ch == ':') (trimList raw)).length = 5) →
        ∀ c, MavenCoordinate.parse raw = .ok c →
          c.version =
            if trimList ((splitP (fun ch => ch == ':') (trimList raw)).getLastD []) = []
            then none
            else some (trimList ((splitP (fun ch => ch == ':') (trimList raw)).getLastD []))) ∧
      (MavenCoordinate.parse raw = .error .emptyGroupId ↔
        (2 ≤ (splitP (fun ch => ch == ':') (trimList raw)).length ∧
          (splitP (fun ch => ch == ':') (trimList raw)).length ≤ 5) ∧
        trimList ((splitP (fun ch => ch == ':') (trimList raw)).getD 0 []) = []) ∧
      (MavenCoordinate.parse raw = .error .emptyArtifactId ↔
        (2 ≤ (splitP (fun ch => ch == ':') (trimList raw)).length ∧
          (splitP (fun ch => ch == ':') (trimList raw)).length ≤ 5) ∧
        trimList ((splitP (fun ch => ch == ':') (trimList raw)).getD 0 []) ≠ [] ∧
        trimList ((splitP (fun ch => ch == ':') (trimList raw)).getD 1 []) = []) ∧
      (¬(2 ≤ (splitP (fun ch => ch == ':') (trimList raw)).length ∧
          (splitP (fun ch => ch == ':') (trimList raw)).length ≤ 5) →
        MavenCoordinate.parse raw = .error (.invalidFormat (trimList raw))) := by
  intro raw
  simp only [MavenCoordinate.parse]
  split_ifs with h1 h2 h3 h4 h5 h6 <;>
    · refine ⟨?_, ?_, ?_, ?_, ?_, ?_, ?_⟩ <;>
        simp_all [List.isEmpty_iff] <;> omega

/-- C8 witness: `"g:a:jar:1.0"` splits into 4 segments, so parsing succeeds and
takes the last segment as the version. -/
theorem coordinate_parse_spec_witness :
    MavenCoordinate.parse "g:a:jar:1.0".data =
      .ok { group_id := "g".data, artifact_id := "a".data,
            version := some "1.0".data } ∧
    ∀ c, MavenCoordinate.parse "g:a:jar:1.0".data = .ok c → c.version = some "1.0".data := by
  refine ⟨by rfl, ?_⟩
  intro c hc
  have h := (coordinate_parse_spec "g:a:jar:1.0".data).2.2.2.1 (by decide) c hc
  simpa using h

/-- C9: the batch operations map each input to its per-item result, preserving
length and input order; an item's result depends only on that item (failure
isolation), and `error_count` counts exactly the errored entries; with the
concrete three-input instance whose malformed second entry alone carries an
error, for both the bulk check and the health analysis. -/
theorem batch_spec :
    (∀ (fetch : MavenCoordinate → Except (List Char) CachedMetadata)
      (deps : List (List Char)) (stable_only : Bool),
      (check_multiple_dependencies fetch deps stable_only).length = deps.length ∧
      (∀ i : Nat, (check_multiple_dependencies fetch deps stable_only)[i]? =
        (deps[i]?).map fun d => check_single_dependency fetch d stable_only) ∧
      countErrors (check_multiple_dependencies fetch deps stable_only) =
        ((check_multiple_dependencies fetch deps stable_only).filter
          fun r => r.error.isSome).length) ∧
    (∀ (fetch : MavenCoordinate → Except (List Char) CachedMetadata)
      (deps : List (List Char)),
      (analyze_project_health fetch deps).length = deps.length ∧
      (∀ i : Nat, (analyze_project_health fetch deps)[i]? =
        (deps[i]?).map fun d => analyze_single_health fetch d)) ∧
    (∀ (fetch : MavenCoordinate → Except (List Char) CachedMetadata)
      (deps₁ deps₂ : List (List Char)) (stable_only : Bool) (j : Nat),
      deps₁[j]? = deps₂[j]? →
        (check_multiple_dependencies fetch deps₁ stable_only)[j]? =
          (check_multiple_dependencies fetch deps₂ stable_only)[j]?) ∧
    (∀ (fetch : MavenCoordinate → Except (List Char) CachedMetadata)
      (deps₁ deps₂ : List (List Char)) (j : Nat),
      deps₁[j]? = deps₂[j]? →
        (analyze_project_health fetch deps₁)[j]? =
          (analyze_project_health fetch deps₂)[j]?) ∧
    ((check_multiple_dependencies stubFetch
        ["org.x:lib:1.0".data, "bad".data, "org.y:lib2:2.0".data] true).map
      fun r => r.error.isSome) = [false, true, false] ∧
    countErrors (check_multiple_dependencies stubFetch
      ["org.x:lib:1.0".data, "bad".data, "org.y:lib2:2.0".data] true) = 1 ∧
    (check_multiple_dependencies stubFetch
      ["org.x:lib:1.0".data, "bad".data, "org.y:lib2:2.0".data] true).length = 3 ∧
    ((analyze_project_health stubFetch
        ["org.x:lib:1.0".data, "bad".data, "org.y:lib2:2.0".data]).map
      fun r => r.error.isSome) = [false, true, false] := by
  refine ⟨?_, ?_, ?_, ?_, by decide, by decide, by decide, by decide⟩
  · intro fetch deps stable_only
    refine ⟨by simp [check_multiple_dependencies], ?_, ?_⟩
    · intro i
      simp [check_multiple_dependencies, List.getElem?_map]
    · simpa [countErrors] using
        countErrors_go (check_multiple_dependencies fetch deps stable_only) 0
  · intro fetch deps
    refine ⟨by simp [analyze_project_health], ?_⟩
    intro i
    simp [analyze_project_health, List.getElem?_map]
  · intro fetch deps₁ deps₂ stable_only j h
    simp [check_multiple_dependencies, List.getElem?_map, h]
  · intro fetch deps₁ deps₂ j h
    simp [analyze_project_health, List.getElem?_map, h]

/-- C9 witness: isolation applied at index 0 of two batches differing only in
their second entry. -/
theorem batch_spec_witness :
    (check_multiple_dependencies stubFetch ["org.x:lib:1.0".data, "bad".data]
        true)[0]? =
      (check_multiple_dependencies stubFetch
        ["org.x:lib:1.0".data, "org.y:lib2:2.0".data] true)[0]? := by
  exact batch_spec.2.2.1 stubFetch ["org.x:lib:1.0".data, "bad".data]
    ["org.x:lib:1.0".data, "org.y:lib2:2.0".data] true 0 (by decide)

/-- C10: `version_exists` is exact string membership in `all_versions` (two
comparator-Equal but textually different versions are distinct: `"1.0.0"` and
`"01.00.000"` compare Equal yet only the verbatim string counts), and the
check-version tool reports a stability classification exactly when the version
exists. -/
theorem version_exists_spec :
    (∀ (metadata : CachedMetadata) (version : List Char),
      (version_exists metadata version = true ↔ version ∈ metadata.all_versions) ∧
      check_version_exists_stability metadata version =
        (if version_exists metadata version then
          some (VersionStability.classify version) else none) ∧
      ((∃ st, check_version_exists_stability metadata version = some st) ↔
        version_exists metadata version = true)) ∧
    MavenVersion.compare (MavenVersion.parse "1.0.0".data)
      (MavenVersion.parse "01.00.000".data) = .eq ∧
    version_exists stubMetadata "01.00.000".data = false ∧
    version_exists stubMetadata "1.0.0".data = true := by
  refine ⟨?_, by decide, by decide, by decide⟩
  intro metadata version
  refine ⟨?_, rfl, ?_⟩
  · simp only [version_exists, List.any_eq_true, beq_iff_eq]
    constructor
    · rintro ⟨x, hx, rfl⟩
      exact hx
    · intro h
      exact ⟨version, h, rfl⟩
  · cases h : metadata.all_versions.any (fun v => v == version) <;>
      simp [check_version_exists_stability, version_exists, h]
